import Mathlib

/-!
A verification development for the dban library: a key-value store over a
relational table (kv.go) and a cursor-based batch streamer on top of it
(streamer.go).  The definitions below are a shallow embedding of that Go
code; the database is modelled as the rows of the key_value table together
with an optional injected driver fault, and every stateful operation passes
the database state explicitly.
-/

namespace Dban

/-- A row of the key_value table, as in kv.go (`KeyValue`). -/
structure KeyValue where
  key : String
  value : String
  deriving DecidableEq, Repr

/-- The database state backing the key_value table: the rows (one entry per
key) plus an optional injected driver fault.  When `fault` is set, every
statement fails with that message; this models connectivity-level failures
of the external engine, which are distinct from the "no rows" outcome. -/
structure Db where
  rows : List (String × String)
  fault : Option String
  deriving DecidableEq, Repr

/-- Association-list lookup for the unique-key table. -/
def lookupRow : List (String × String) → String → Option String
  | [], _ => none
  | (k, v) :: rest, key => if k = key then some v else lookupRow rest key

/-- The effect of `INSERT ... ON CONFLICT (key) DO UPDATE SET value =
EXCLUDED.value` on the rows: overwrite in place if the key exists,
append a fresh row otherwise. -/
def upsertRows : List (String × String) → String → String → List (String × String)
  | [], key, v => [(key, v)]
  | (k, w) :: rest, key, v =>
    if k = key then (k, v) :: rest else (k, w) :: upsertRows rest key v

/-- Go error values as produced by this library: a base error message, or an
`errors.Wrap` of an inner error with a message (the structured logan fields
are elided).  `fuelExhausted` is not a Go error: it marks exhaustion of the
explicit fuel used to embed the self-recursive `FormList`, and is proved
unreachable below. -/
inductive GoErr where
  | base (msg : String)
  | wrap (msg : String) (inner : GoErr)
  | fuelExhausted
  deriving DecidableEq, Repr

/-- Outcome of the driver-level `db.Get` call: a scanned row, the
distinguished `sql.ErrNoRows`, or another driver error. -/
inductive SqlOut where
  | row (kv : KeyValue)
  | errNoRows
  | errDriver (msg : String)
  deriving DecidableEq, Repr

/-- The driver executing the select built by `keyValueQ.get`: an injected
fault fails the statement; otherwise a missing key yields `sql.ErrNoRows`. -/
def dbGet (d : Db) (key : String) : SqlOut :=
  match d.fault with
  | some m => .errDriver m
  | none =>
    match lookupRow d.rows key with
    | none => .errNoRows
    | some v => .row ⟨key, v⟩

/-- `keyValueQ.get` (kv.go): issues the select (with a `FOR UPDATE` suffix
when `forUpdate` is set; the row lock has no further effect in this
sequential embedding), converts `sql.ErrNoRows` to an absent result with no
error, and propagates any other driver error unwrapped. -/
def getRow (d : Db) (key : String) (_forUpdate : Bool) : Except GoErr (Option KeyValue) :=
  match dbGet d key with
  | .errNoRows => .ok none
  | .errDriver m => .error (.base m)
  | .row kv => .ok (some kv)

/-- `keyValueQ.Get`. -/
def Get (d : Db) (key : String) : Except GoErr (Option KeyValue) :=
  getRow d key false

/-- `keyValueQ.LockingGet`. -/
def LockingGet (d : Db) (key : String) : Except GoErr (Option KeyValue) :=
  getRow d key true

/-- Result of a `Must*` variant: the returned value, or a process panic
carrying the wrapped error. -/
inductive MustResult where
  | value (v : Option KeyValue)
  | panicked (e : GoErr)
  deriving DecidableEq, Repr

/-- `keyValueQ.MustGet`: panics exactly when `Get` returns an error. -/
def MustGet (d : Db) (key : String) : MustResult :=
  match Get d key with
  | .error e => .panicked (.wrap ("failed to get value by key") e)
  | .ok v => .value v

/-- `keyValueQ.MustLockingGet`: panics exactly when `LockingGet` errors. -/
def MustLockingGet (d : Db) (key : String) : MustResult :=
  match LockingGet d key with
  | .error e => .panicked (.wrap ("failed to locking get value by key") e)
  | .ok v => .value v

/-- `keyValueQ.Upsert`: the single-statement insert-or-update; fails only on
a driver fault. -/
def Upsert (d : Db) (kv : KeyValue) : Except GoErr Db :=
  match d.fault with
  | some m => .error (.base m)
  | none => .ok ⟨upsertRows d.rows kv.key kv.value, none⟩

/-! ### strconv: decimal formatting and parsing (as used by streamer.go) -/

/-- The character for one decimal digit (code of the digit zero is 48). -/
def digitChar (n : Nat) : Char := Char.ofNat (48 + n)

/-- `strconv.FormatUint(n, 10)`: repeated division by ten, most significant
digit first.  The first argument is fuel bounding the digit count; the
wrapper below supplies `n + 1`, which always suffices. -/
def formatUintAux : Nat → Nat → List Char → List Char
  | 0, _, acc => acc
  | fuel + 1, n, acc =>
    if n < 10 then digitChar n :: acc
    else formatUintAux fuel (n / 10) (digitChar (n % 10) :: acc)

/-- `strconv.FormatUint(n, 10)` as a string. -/
def formatUint (n : Nat) : String := ⟨formatUintAux (n + 1) n []⟩

/-- Decimal digit test for one character. -/
def isDigitCh (c : Char) : Bool := 48 ≤ c.toNat && c.toNat ≤ 57

/-- The value of a list of decimal digit characters, most significant
first. -/
def digitsVal (l : List Char) : Nat := l.foldl (fun a c => 10 * a + (c.toNat - 48)) 0

/-- The sign handling of `strconv.ParseInt`: strip one leading plus or
minus; the boolean records whether the sign was minus. -/
def splitSign : List Char → Bool × List Char
  | [] => (false, [])
  | c :: rest =>
    if c = '+' then (false, rest)
    else if c = '-' then (true, rest)
    else (false, c :: rest)

/-- `strconv.ParseInt(s, 10, 64)`: an optional sign followed by at least one
decimal digit, with the resulting value required to lie in the signed
64-bit range; out-of-range values (including every unsigned value at or
above `2 ^ 63`) and non-numeric strings are errors. -/
def parseInt64 (s : String) : Except String Int :=
  let p := splitSign s.data
  if p.2 = [] then .error ("invalid syntax")
  else if p.2.all isDigitCh then
    if p.1 then
      if digitsVal p.2 ≤ 2 ^ 63 then .ok (-(digitsVal p.2 : Int))
      else .error ("value out of range")
    else
      if digitsVal p.2 < 2 ^ 63 then .ok ((digitsVal p.2 : Int))
      else .error ("value out of range")
  else .error ("invalid syntax")

/-! ### The streamer (streamer.go) -/

/-- The streamer configuration: the paginated source (given the limit and the
0-based page number it returns one page of at most `limit` entities, or a
source error), the cursor key, and the batch size.  The optional logger
only emits a warning and the context is merely handed to the caller's
handler, so neither affects the values computed here and both are
omitted. -/
structure Streamer (T : Type) where
  stream : Nat → Nat → Except GoErr (List T)
  keyValueKey : String
  batchSize : Nat

/-- `streamer.Select`: delegate to the source with the configured batch size
as the limit. -/
def Select {T : Type} (s : Streamer T) (pageNumber : Nat) : Except GoErr (List T) :=
  s.stream s.batchSize pageNumber

/-- `streamer.GetCurrentPage`: locking read of the cursor key; an absent row
is treated as the value of the digit zero (without writing it back — the
source performs only the locking read, so this embedding returns no
modified store); the stored string is parsed with `parseInt64` and negative
values are rejected. -/
def GetCurrentPage {T : Type} (s : Streamer T) (d : Db) : Except GoErr Nat :=
  match LockingGet d s.keyValueKey with
  | .error e => .error (.wrap ("failed to get current cursor value") e)
  | .ok pageKV =>
    match parseInt64 ((pageKV.getD ⟨s.keyValueKey, "0"⟩).value) with
    | .error e => .error (.wrap ("failed to parse cursor") (.base e))
    | .ok page =>
      if page < 0 then .error (.base ("cursor cannot be negative"))
      else .ok page.toNat

/-- `streamer.FormList`, with the Go function's self-recursion made explicit
through a fuel parameter; `FormList` below runs it with fuel two, and the
fuel-stability theorem shows any larger fuel computes the same result (the
recursive wraparound branch is taken at most once per call).  The database
state is returned in every branch, because the upserts are individually
committed statements whose effect persists even when the call errors. -/
def FormListGo {T : Type} (s : Streamer T) : Nat → Db → Except GoErr (List T) × Db
  | 0, d => (.error .fuelExhausted, d)
  | fuel + 1, d =>
    match GetCurrentPage s d with
    | .error e => (.error (.wrap ("failed to get current page number") e), d)
    | .ok pageNumber =>
      match Select s pageNumber with
      | .error e => (.error (.wrap ("failed to select entities") e), d)
      | .ok entities =>
        if entities.isEmpty && (pageNumber == 0) then (.ok [], d)
        else if entities.isEmpty then
          match Upsert d ⟨s.keyValueKey, "0"⟩ with
          | .error e => (.error (.wrap ("failed to upsert last page") e), d)
          | .ok dReset => FormListGo s fuel dReset
        else
          match Upsert d ⟨s.keyValueKey, formatUint (pageNumber + 1)⟩ with
          | .error e => (.error (.wrap ("failed to update last processed entities") e), d)
          | .ok dNext => (.ok entities, dNext)

/-- `streamer.FormList`. -/
def FormList {T : Type} (s : Streamer T) (d : Db) : Except GoErr (List T) × Db :=
  FormListGo s 2 d

/-- The handler loop of `FormListAndProcess`.  Besides the Go loop's result
it returns the trace of elements the handler was invoked on, in invocation
order — the loop's observable effect.  On the first handler failure the
error is wrapped with the fixed message and the remaining elements are not
visited. -/
def processEntities {T : Type} (fn : T → Except GoErr Unit) :
    List T → List T × Except GoErr Unit
  | [] => ([], .ok ())
  | t :: ts =>
    match fn t with
    | .error e => ([t], .error (.wrap ("failed to process an entity") e))
    | .ok _ => ((t :: (processEntities fn ts).1), (processEntities fn ts).2)

/-- `streamer.FormListAndProcess`: form the list, then run the handler loop
over the returned entities (the execution context handed to the handler is
omitted, as above). -/
def FormListAndProcess {T : Type} (s : Streamer T) (fn : T → Except GoErr Unit)
    (d : Db) : (List T × Except GoErr Unit) × Db :=
  match FormList s d with
  | (.error e, dAfter) =>
    (([], .error (.wrap ("failed to form a list of entities") e)), dAfter)
  | (.ok entities, dAfter) => (processEntities fn entities, dAfter)

/-- The state of the store after a number of successive `FormList` calls. -/
def dbAfterCalls {T : Type} (s : Streamer T) (d : Db) : Nat → Db
  | 0 => d
  | n + 1 => (FormList s (dbAfterCalls s d n)).2

/-- Spec-side reading used for the corrected claim C3: the stored string is
the base-10 representation of an unsigned 64-bit integer — nonempty, digits
only, value below `2 ^ 64`. -/
def isUnsignedDecimal (v : String) : Bool :=
  !(v.data.isEmpty) && v.data.all isDigitCh && digitsVal v.data < 2 ^ 64

/-! ### Concrete instances used to evaluate the definitions -/

/-- Page `p` of a concrete five-element source read with batch size two. -/
def exPage (p : Nat) : List Nat := (([10, 20, 30, 40, 50].drop (2 * p)).take 2)

/-- A streamer over the five-element source, batch size two. -/
def exSrc : Streamer Nat := ⟨fun _ p => .ok (exPage p), "cursor", 2⟩

/-- A streamer over a source that is empty at every page. -/
def exEmptySrc : Streamer Nat := ⟨fun _ _ => .ok [], "cursor", 2⟩

/-- The fresh database: no rows, no fault. -/
def exDb : Db := ⟨[], none⟩

/-! ### Formatting and parsing lemmas -/

theorem digitChar_toNat {n : Nat} (h : n < 10) : (digitChar n).toNat = 48 + n := by
  interval_cases n <;> decide

theorem isDigitCh_digitChar {n : Nat} (h : n < 10) : isDigitCh (digitChar n) = true := by
  interval_cases n <;> decide

theorem lt_ten_pow (n : Nat) : n < 10 ^ (n + 1) := by
  induction n with
  | zero => norm_num
  | succ n ih =>
    have h : 10 ^ (n + 1) ≤ 10 ^ (n + 2) := Nat.pow_le_pow_right (by norm_num) (by omega)
    omega

theorem formatUintAux_spec :
    ∀ (fuel n : Nat) (acc : List Char), n < 10 ^ (fuel + 1) →
      ∃ ds, formatUintAux (fuel + 1) n acc = ds ++ acc ∧ ds ≠ [] ∧
        (∀ c ∈ ds, isDigitCh c = true) ∧
        ∀ a, List.foldl (fun a c => 10 * a + (c.toNat - 48)) a ds = a * 10 ^ ds.length + n := by
  intro fuel
  induction fuel with
  | zero =>
    intro n acc h
    have h10 : n < 10 := by simpa using h
    refine ⟨[digitChar n], by simp [formatUintAux, h10], by simp, ?_, ?_⟩
    · intro c hc
      simp only [List.mem_singleton] at hc
      subst hc
      exact isDigitCh_digitChar h10
    · intro a
      simp only [List.foldl_cons, List.foldl_nil, List.length_singleton,
        digitChar_toNat h10, pow_one]
      omega
  | succ fuel ih =>
    intro n acc h
    by_cases h10 : n < 10
    · refine ⟨[digitChar n], by simp [formatUintAux, h10], by simp, ?_, ?_⟩
      · intro c hc
        simp only [List.mem_singleton] at hc
        subst hc
        exact isDigitCh_digitChar h10
      · intro a
        simp only [List.foldl_cons, List.foldl_nil, List.length_singleton,
          digitChar_toNat h10, pow_one]
        omega
    · have hdiv : n / 10 < 10 ^ (fuel + 1) := by
        rw [Nat.div_lt_iff_lt_mul (by norm_num : (0 : Nat) < 10)]
        calc n < 10 ^ (fuel + 2) := h
          _ = 10 ^ (fuel + 1) * 10 := by rw [pow_succ]
      obtain ⟨ds, hds, hne, hdig, hval⟩ := ih (n / 10) (digitChar (n % 10) :: acc) hdiv
      have hmod : n % 10 < 10 := Nat.mod_lt n (by norm_num)
      refine ⟨ds ++ [digitChar (n % 10)], ?_, by simp, ?_, ?_⟩
      · rw [show formatUintAux (fuel + 1 + 1) n acc
            = formatUintAux (fuel + 1) (n / 10) (digitChar (n % 10) :: acc) by
          simp [formatUintAux, h10]]
        rw [hds]
        simp
      · intro c hc
        rcases List.mem_append.mp hc with hin | hin
        · exact hdig c hin
        · simp only [List.mem_singleton] at hin
          subst hin
          exact isDigitCh_digitChar hmod
      · intro a
        rw [List.foldl_append, hval a]
        simp only [List.foldl_cons, List.foldl_nil, List.length_append,
          List.length_singleton, digitChar_toNat hmod]
        have hr : 48 + n % 10 - 48 = n % 10 := by omega
        rw [hr]
        calc 10 * (a * 10 ^ ds.length + n / 10) + n % 10
            = a * (10 ^ ds.length * 10) + (10 * (n / 10) + n % 10) := by ring
          _ = a * 10 ^ (ds.length + 1) + n := by rw [Nat.div_add_mod, pow_succ]

theorem formatUint_spec (n : Nat) :
    (formatUint n).data ≠ [] ∧ (∀ c ∈ (formatUint n).data, isDigitCh c = true) ∧
      digitsVal (formatUint n).data = n := by
  obtain ⟨ds, hds, hne, hdig, hval⟩ := formatUintAux_spec n n [] (lt_ten_pow n)
  have hdata : (formatUint n).data = ds := by
    show (formatUintAux (n + 1) n []) = ds
    rw [hds, List.append_nil]
  rw [hdata]
  refine ⟨hne, hdig, ?_⟩
  have := hval 0
  simpa [digitsVal] using this

theorem parseInt64_formatUint {n : Nat} (h : n < 2 ^ 63) :
    parseInt64 (formatUint n) = .ok ((n : Int)) := by
  obtain ⟨hne, hdig, hval⟩ := formatUint_spec n
  obtain ⟨c, rest, hl⟩ := List.exists_cons_of_ne_nil hne
  have hc : isDigitCh c = true := hdig c (by rw [hl]; exact List.mem_cons_self c rest)
  have hcp : c ≠ '+' := by
    intro hcc
    rw [hcc] at hc
    exact absurd hc (by decide)
  have hcm : c ≠ '-' := by
    intro hcc
    rw [hcc] at hc
    exact absurd hc (by decide)
  have hsplit : splitSign (formatUint n).data = (false, (formatUint n).data) := by
    rw [hl]
    simp [splitSign, hcp, hcm]
  unfold parseInt64
  rw [hsplit]
  simp only [hl, List.cons_ne_self, if_neg]
  have hall : ((c :: rest).all isDigitCh) = true := by
    rw [List.all_eq_true]
    intro x hx
    exact hdig x (hl ▸ hx)
  rw [← hl]
  have hnil : ((formatUint n).data = []) = False := by
    simp [hne]
  simp only [hnil, if_false]
  have hall2 : ((formatUint n).data.all isDigitCh) = true := by
    rw [List.all_eq_true]
    intro x hx
    exact hdig x hx
  rw [hall2]
  simp only [if_true, hval, h, if_pos]
  rfl

/-! ### Store and cursor lemmas -/

theorem lookupRow_upsertRows_self (rows : List (String × String)) (k v : String) :
    lookupRow (upsertRows rows k v) k = some v := by
  induction rows with
  | nil => simp [upsertRows, lookupRow]
  | cons p rest ih =>
    obtain ⟨k', w⟩ := p
    by_cases h : k' = k <;> simp [upsertRows, lookupRow, h, ih]

theorem lockingGet_found {d : Db} {key v : String} (hf : d.fault = none)
    (hk : lookupRow d.rows key = some v) : LockingGet d key = .ok (some ⟨key, v⟩) := by
  simp [LockingGet, getRow, dbGet, hf, hk]

theorem lockingGet_missing {d : Db} {key : String} (hf : d.fault = none)
    (hk : lookupRow d.rows key = none) : LockingGet d key = .ok none := by
  simp [LockingGet, getRow, dbGet, hf, hk]

theorem upsert_ok {d : Db} {kv : KeyValue} (hf : d.fault = none) :
    Upsert d kv = .ok ⟨upsertRows d.rows kv.key kv.value, none⟩ := by
  simp [Upsert, hf]

theorem getCurrentPage_fault_none {T : Type} {s : Streamer T} {d : Db} {n : Nat}
    (h : GetCurrentPage s d = .ok n) : d.fault = none := by
  cases hf : d.fault with
  | none => rfl
  | some m => simp [GetCurrentPage, LockingGet, getRow, dbGet, hf] at h

theorem getCurrentPage_of_row {T : Type} {s : Streamer T} {d : Db} {c : Nat}
    (hf : d.fault = none) (hk : lookupRow d.rows s.keyValueKey = some (formatUint c))
    (hc : c < 2 ^ 63) : GetCurrentPage s d = .ok c := by
  rw [GetCurrentPage, lockingGet_found hf hk]
  simp [parseInt64_formatUint hc]

theorem getCurrentPage_of_missing {T : Type} {s : Streamer T} {d : Db}
    (hf : d.fault = none) (hk : lookupRow d.rows s.keyValueKey = none) :
    GetCurrentPage s d = .ok 0 := by
  rw [GetCurrentPage, lockingGet_missing hf hk]
  rfl

/-! ### FormList branch lemmas -/

theorem formListGo_nonempty {T : Type} {s : Streamer T} {d : Db} {p : Nat} {e : T}
    {tl : List T} (fuel : Nat) (hp : GetCurrentPage s d = .ok p)
    (hsel : Select s p = .ok (e :: tl)) :
    FormListGo s (fuel + 1) d =
      (.ok (e :: tl), ⟨upsertRows d.rows s.keyValueKey (formatUint (p + 1)), none⟩) := by
  have hf := getCurrentPage_fault_none hp
  simp [FormListGo, hp, hsel, upsert_ok hf]

theorem formListGo_empty_zero {T : Type} {s : Streamer T} {d : Db} (fuel : Nat)
    (hp : GetCurrentPage s d = .ok 0) (hsel : Select s 0 = .ok []) :
    FormListGo s (fuel + 1) d = (.ok [], d) := by
  simp [FormListGo, hp, hsel]

theorem formListGo_wrap {T : Type} {s : Streamer T} {d : Db} {p : Nat} (fuel : Nat)
    (hp : GetCurrentPage s d = .ok p) (hp0 : p ≠ 0) (hsel : Select s p = .ok []) :
    FormListGo s (fuel + 1) d =
      FormListGo s fuel ⟨upsertRows d.rows s.keyValueKey ("0"), none⟩ := by
  have hf := getCurrentPage_fault_none hp
  simp [FormListGo, hp, hsel, hp0, upsert_ok hf]

theorem formListGo_gcp_error {T : Type} {s : Streamer T} {d : Db} {e : GoErr} (fuel : Nat)
    (hp : GetCurrentPage s d = .error e) :
    FormListGo s (fuel + 1) d = (.error (.wrap ("failed to get current page number") e), d) := by
  simp [FormListGo, hp]

theorem formListGo_select_error {T : Type} {s : Streamer T} {d : Db} {p : Nat} {e : GoErr}
    (fuel : Nat) (hp : GetCurrentPage s d = .ok p) (hsel : Select s p = .error e) :
    FormListGo s (fuel + 1) d = (.error (.wrap ("failed to select entities") e), d) := by
  simp [FormListGo, hp, hsel]

theorem upsertRows_singleton (k v w : String) : upsertRows [(k, v)] k w = [(k, w)] := by
  simp [upsertRows]

/-! ### Claim theorems -/

/-- C2: whenever `GetCurrentPage` succeeds with page number `p` and the
source returns a non-empty page for limit = batch size and page = `p`,
`FormList` upserts the cursor key with the decimal string of `p + 1` and
then returns exactly the fetched page unchanged (the page just read, not
the incremented one). -/
theorem formList_advances {T : Type} (s : Streamer T) (d : Db) (p : Nat) (es : List T)
    (hp : GetCurrentPage s d = .ok p) (hsel : Select s p = .ok es) (hne : es ≠ []) :
    FormList s d =
      (.ok es, ⟨upsertRows d.rows s.keyValueKey (formatUint (p + 1)), none⟩) := by
  obtain ⟨e, tl, rfl⟩ := List.exists_cons_of_ne_nil hne
  exact formListGo_nonempty 1 hp hsel

/-- Witness for C2: on the five-element source with a fresh store, the first
call returns page zero and stores the cursor value of one. -/
theorem formList_advances_witness :
    FormList exSrc exDb = (.ok ([10, 20]), ⟨[(("cursor"), ("1"))], none⟩) :=
  formList_advances exSrc exDb 0 ([10, 20]) rfl rfl (by decide)

/-- C7: when the source's page zero is empty and the current page resolves
to zero, `FormList` returns an empty page with no error and leaves the
store untouched; in particular an absent cursor key stays absent (no row is
created). -/
theorem formList_empty_at_zero {T : Type} (s : Streamer T) (d : Db)
    (hp : GetCurrentPage s d = .ok 0) (hsel : Select s 0 = .ok []) :
    FormList s d = (.ok [], d) ∧
      (lookupRow d.rows s.keyValueKey = none →
        lookupRow (FormList s d).2.rows s.keyValueKey = none) := by
  have h := formListGo_empty_zero 1 hp hsel
  exact ⟨h, fun habs => by rw [show FormList s d = (.ok [], d) from h]; exact habs⟩

/-- Witness for C7: the empty source with a fresh store. -/
theorem formList_empty_at_zero_witness : FormList exEmptySrc exDb = (.ok [], exDb) :=
  (formList_empty_at_zero exEmptySrc exDb rfl rfl).1

/-- C8: `GetCurrentPage` on a store with no row for the cursor key returns
page number zero with no error; the embedding of the function is read-only
(the source performs only the locking read), so no write is performed and
the zero value is not written back. -/
theorem getCurrentPage_fresh {T : Type} (s : Streamer T) (d : Db)
    (hf : d.fault = none) (hk : lookupRow d.rows s.keyValueKey = none) :
    GetCurrentPage s d = .ok 0 :=
  getCurrentPage_of_missing hf hk

/-- Witness for C8: the fresh store. -/
theorem getCurrentPage_fresh_witness : GetCurrentPage exSrc exDb = .ok 0 :=
  getCurrentPage_fresh exSrc exDb rfl rfl

/-- C9: for a key with no row (and no driver fault), `Get` and `LockingGet`
return an absent result with no error; consequently `MustGet` and
`MustLockingGet` — which panic exactly when the underlying operation
returns an error, as the final two conjuncts state for every store and
key — return the absent value without panicking. -/
theorem get_absent_no_error (d : Db) (key : String)
    (hf : d.fault = none) (hk : lookupRow d.rows key = none) :
    Get d key = .ok none ∧ LockingGet d key = .ok none ∧
      MustGet d key = .value none ∧ MustLockingGet d key = .value none ∧
      (∀ dx kx, (∃ e, MustGet dx kx = .panicked e) ↔ ∃ e, Get dx kx = .error e) ∧
      (∀ dx kx, (∃ e, MustLockingGet dx kx = .panicked e) ↔
        ∃ e, LockingGet dx kx = .error e) := by
  have hget : Get d key = .ok none := by simp [Get, getRow, dbGet, hf, hk]
  have hlget : LockingGet d key = .ok none := by simp [LockingGet, getRow, dbGet, hf, hk]
  refine ⟨hget, hlget, by simp [MustGet, hget], by simp [MustLockingGet, hlget], ?_, ?_⟩
  · intro dx kx
    constructor
    · rintro ⟨e, he⟩
      cases hg : Get dx kx with
      | error e2 => exact ⟨e2, rfl⟩
      | ok v => simp [MustGet, hg] at he
    · rintro ⟨e, he⟩
      exact ⟨.wrap ("failed to get value by key") e, by simp [MustGet, he]⟩
  · intro dx kx
    constructor
    · rintro ⟨e, he⟩
      cases hg : LockingGet dx kx with
      | error e2 => exact ⟨e2, rfl⟩
      | ok v => simp [MustLockingGet, hg] at he
    · rintro ⟨e, he⟩
      exact ⟨.wrap ("failed to locking get value by key") e, by simp [MustLockingGet, he]⟩

/-- Witness for C9: a fresh store and an arbitrary key. -/
theorem get_absent_no_error_witness :
    Get exDb ("k") = .ok none ∧ MustGet exDb ("k") = .value none :=
  ⟨(get_absent_no_error exDb ("k") rfl rfl).1,
   (get_absent_no_error exDb ("k") rfl rfl).2.2.1⟩

/-- After the wraparound reset has been written, the cursor reads back as
zero, so the recursive call cannot take the reset branch again: any
positive fuel computes the same result. -/
theorem formListGo_after_reset {T : Type} {s : Streamer T} {d : Db} (m : Nat)
    (hf : d.fault = none) (hk : lookupRow d.rows s.keyValueKey = some ("0")) :
    FormListGo s (m + 1) d = FormListGo s 1 d := by
  have hk0 : lookupRow d.rows s.keyValueKey = some (formatUint 0) := hk
  have hp : GetCurrentPage s d = .ok 0 :=
    getCurrentPage_of_row hf hk0 (by norm_num)
  cases hsel : Select s 0 with
  | error e =>
    rw [formListGo_select_error m hp hsel]
    rw [show (1 : Nat) = 0 + 1 from rfl, formListGo_select_error 0 hp hsel]
  | ok es =>
    cases es with
    | nil =>
      rw [formListGo_empty_zero m hp hsel]
      rw [show (1 : Nat) = 0 + 1 from rfl, formListGo_empty_zero 0 hp hsel]
    | cons e tl =>
      rw [formListGo_nonempty m hp hsel]
      rw [show (1 : Nat) = 0 + 1 from rfl, formListGo_nonempty 0 hp hsel]

/-- Fuel beyond two is never consumed: the reset branch is taken at most
once per call. -/
theorem formListGo_fuel_stable {T : Type} (s : Streamer T) (d : Db) (fuel : Nat) :
    FormListGo s (fuel + 2) d = FormList s d := by
  show FormListGo s (fuel + 1 + 1) d = FormListGo s (1 + 1) d
  cases hp : GetCurrentPage s d with
  | error e => rw [formListGo_gcp_error (fuel + 1) hp, formListGo_gcp_error 1 hp]
  | ok p =>
    cases hsel : Select s p with
    | error e => rw [formListGo_select_error (fuel + 1) hp hsel, formListGo_select_error 1 hp hsel]
    | ok es =>
      cases es with
      | nil =>
        by_cases hp0 : p = 0
        · subst hp0
          rw [formListGo_empty_zero (fuel + 1) hp hsel, formListGo_empty_zero 1 hp hsel]
        · rw [formListGo_wrap (fuel + 1) hp hp0 hsel, formListGo_wrap 1 hp hp0 hsel]
          exact formListGo_after_reset fuel rfl (lookupRow_upsertRows_self _ _ _)
      | cons e tl =>
        rw [formListGo_nonempty (fuel + 1) hp hsel, formListGo_nonempty 1 hp hsel]

/-- A `FormList` call never runs out of the fuel that embeds its
recursion. -/
theorem formList_not_exhausted {T : Type} (s : Streamer T) (d : Db) :
    (FormList s d).1 ≠ .error .fuelExhausted := by
  show (FormListGo s (1 + 1) d).1 ≠ .error .fuelExhausted
  cases hp : GetCurrentPage s d with
  | error e => rw [formListGo_gcp_error 1 hp]; simp
  | ok p =>
    cases hsel : Select s p with
    | error e => rw [formListGo_select_error 1 hp hsel]; simp
    | ok es =>
      cases es with
      | nil =>
        by_cases hp0 : p = 0
        · subst hp0
          rw [formListGo_empty_zero 1 hp hsel]
          simp
        · rw [formListGo_wrap 1 hp hp0 hsel]
          have hk0 : lookupRow (upsertRows d.rows s.keyValueKey ("0")) s.keyValueKey
              = some (formatUint 0) := lookupRow_upsertRows_self _ _ _
          have hpR : GetCurrentPage s ⟨upsertRows d.rows s.keyValueKey ("0"), none⟩ = .ok 0 :=
            getCurrentPage_of_row rfl hk0 (by norm_num)
          show (FormListGo s (0 + 1) _).1 ≠ _
          cases hselR : Select s 0 with
          | error e2 => rw [formListGo_select_error 0 hpR hselR]; simp
          | ok esR =>
            cases esR with
            | nil => rw [formListGo_empty_zero 0 hpR hselR]; simp
            | cons e2 tl2 => rw [formListGo_nonempty 0 hpR hselR]; simp
      | cons e tl => rw [formListGo_nonempty 1 hp hsel]; simp

/-- C4: on any single call, `FormList` performs the wraparound step at most
once: running the fuelled embedding with any extra fuel beyond the two
iterations gives the identical result, and a call never exhausts its fuel
(it terminates with at most one extra iteration under the sequential store
semantics built into the embedding, in which the read after the reset
upsert observes the written value of zero). -/
theorem formList_single_retry {T : Type} (s : Streamer T) (d : Db) (fuel : Nat) :
    FormListGo s (fuel + 2) d = FormList s d ∧
      (FormList s d).1 ≠ .error .fuelExhausted :=
  ⟨formListGo_fuel_stable s d fuel, formList_not_exhausted s d⟩

/-- Witness for C4: the five-element source with a fresh store and one unit
of extra fuel. -/
theorem formList_single_retry_witness :
    FormListGo exSrc 3 exDb = FormList exSrc exDb ∧
      (FormList exSrc exDb).1 ≠ .error .fuelExhausted :=
  formList_single_retry exSrc exDb 1

/-- Over any fuel, the value stored at the cursor key is either untouched or
the decimal representation of some natural number. -/
theorem formListGo_cursor_writes {T : Type} (s : Streamer T) (fuel : Nat) :
    ∀ d : Db, lookupRow (FormListGo s fuel d).2.rows s.keyValueKey
        = lookupRow d.rows s.keyValueKey
      ∨ ∃ n, lookupRow (FormListGo s fuel d).2.rows s.keyValueKey = some (formatUint n) := by
  induction fuel with
  | zero => intro d; left; rfl
  | succ fuel ih =>
    intro d
    cases hp : GetCurrentPage s d with
    | error e => left; rw [formListGo_gcp_error fuel hp]
    | ok p =>
      cases hsel : Select s p with
      | error e => left; rw [formListGo_select_error fuel hp hsel]
      | ok es =>
        cases es with
        | nil =>
          by_cases hp0 : p = 0
          · subst hp0
            left
            rw [formListGo_empty_zero fuel hp hsel]
          · rw [formListGo_wrap fuel hp hp0 hsel]
            rcases ih ⟨upsertRows d.rows s.keyValueKey ("0"), none⟩ with h | ⟨n, hn⟩
            · right
              refine ⟨0, ?_⟩
              rw [h]
              exact lookupRow_upsertRows_self _ _ _
            · exact Or.inr ⟨n, hn⟩
        | cons e tl =>
          right
          refine ⟨p + 1, ?_⟩
          rw [formListGo_nonempty fuel hp hsel]
          exact lookupRow_upsertRows_self _ _ _

/-- C10: every value `FormList` writes to its cursor key is the decimal
representation of a natural number — the zero string on wraparound reset or
the decimal encoding of the fetched page number plus one — so after any
call, whether it succeeds or fails, the stored cursor value is either
exactly what it was before the call or the decimal encoding of a
non-negative integer; the invariant that the stored cursor encodes an
integer at least zero is therefore preserved by every call. -/
theorem formList_cursor_writes_decimal {T : Type} (s : Streamer T) (d : Db) :
    lookupRow (FormList s d).2.rows s.keyValueKey = lookupRow d.rows s.keyValueKey
      ∨ ∃ n, lookupRow (FormList s d).2.rows s.keyValueKey = some (formatUint n) :=
  formListGo_cursor_writes s 2 d

/-- When the handler succeeds on every element, the loop visits every
element in order and returns success. -/
theorem processEntities_all_ok {T : Type} {fn : T → Except GoErr Unit} :
    ∀ {l : List T}, (∀ t ∈ l, fn t = .ok ()) → processEntities fn l = (l, .ok ()) := by
  intro l
  induction l with
  | nil => intro _; rfl
  | cons t ts ih =>
    intro h
    have ht : fn t = .ok () := h t (List.mem_cons_self t ts)
    have hts := ih (fun u hu => h u (List.mem_cons_of_mem t hu))
    simp [processEntities, ht, hts]

/-- When the handler succeeds on a first segment and fails on the next
element, the loop visits exactly that segment plus the failing element, in
order, and returns the handler's error wrapped with the fixed message. -/
theorem processEntities_first_failure {T : Type} {fn : T → Except GoErr Unit} {e : GoErr} :
    ∀ (pre : List T) (t : T) (post : List T), (∀ u ∈ pre, fn u = .ok ()) →
      fn t = .error e →
      processEntities fn (pre ++ t :: post) =
        (pre ++ [t], .error (.wrap ("failed to process an entity") e)) := by
  intro pre
  induction pre with
  | nil =>
    intro t post _ ht
    simp [processEntities, ht]
  | cons u us ih =>
    intro t post hpre ht
    have hu : fn u = .ok () := hpre u (List.mem_cons_self u us)
    have hrec := ih t post (fun x hx => hpre x (List.mem_cons_of_mem u hx)) ht
    simp [processEntities, hu, hrec]

/-- C5, amended: `FormListAndProcess` runs the handler loop over the page
returned by `FormList`, invoking the handler exactly once per element,
sequentially in page order; on the first handler failure it returns that
error wrapped with the fixed message ("failed to process an entity"),
which carries no positional context, and it does not invoke the handler on
any later element of that page. -/
theorem formListAndProcess_amended {T : Type} (s : Streamer T) (fn : T → Except GoErr Unit)
    (d dAfter : Db) (entities : List T)
    (hFL : FormList s d = (.ok entities, dAfter)) :
    FormListAndProcess s fn d = (processEntities fn entities, dAfter)
    ∧ ((∀ t ∈ entities, fn t = .ok ()) →
        processEntities fn entities = (entities, .ok ()))
    ∧ (∀ (pre : List T) (t : T) (post : List T) (e : GoErr),
        entities = pre ++ t :: post → (∀ u ∈ pre, fn u = .ok ()) → fn t = .error e →
        processEntities fn entities =
          (pre ++ [t], .error (.wrap ("failed to process an entity") e))) := by
  refine ⟨by simp [FormListAndProcess, hFL], processEntities_all_ok, ?_⟩
  intro pre t post e he hpre ht
  rw [he]
  exact processEntities_first_failure pre t post hpre ht

/-- Witness for C5 (amended): on the page `[10, 20]` with a handler that
fails on the element `20`, the call invokes the handler on `10` and `20`
only and returns the wrapped error. -/
theorem formListAndProcess_amended_witness :
    FormListAndProcess exSrc (fun t => if t == 10 then .ok () else .error (.base ("boom"))) exDb
      = (([10, 20], .error (.wrap ("failed to process an entity") (.base ("boom")))),
         ⟨[(("cursor"), ("1"))], none⟩) := by
  have h := formListAndProcess_amended exSrc
      (fun t => if t == 10 then .ok () else .error (.base ("boom")))
      exDb ⟨[(("cursor"), ("1"))], none⟩ ([10, 20]) rfl
  have h2 := h.2.2 ([10]) 20 ([]) (.base ("boom")) rfl
      (by intro u hu; simp at hu; subst hu; rfl) rfl
  rw [h.1, h2]
  rfl

/-- Counterexample for C5 as stated: the claim says the error returned on
the first handler failure carries positional context identifying which
element or index failed; but a handler failing at index zero and a handler
failing at index one produce the identical returned error (the wrap message
is fixed), while the invocation traces show the failures happened at
different positions, so the error identifies no position. -/
theorem formListAndProcess_positional_counterexample :
    (FormListAndProcess exSrc (fun _ => .error (.base ("boom"))) exDb).1.2
      = (FormListAndProcess exSrc
          (fun t => if t == 10 then .ok () else .error (.base ("boom"))) exDb).1.2
    ∧ (FormListAndProcess exSrc (fun _ => .error (.base ("boom"))) exDb).1.1 = [10]
    ∧ (FormListAndProcess exSrc
        (fun t => if t == 10 then .ok () else .error (.base ("boom"))) exDb).1.1
      = [10, 20] :=
  ⟨rfl, rfl, rfl⟩

/-- Characterization of `GetCurrentPage` when the cursor row holds the
string `v`: the stored string is parsed with the signed 64-bit decimal
parse and negative results are rejected. -/
theorem getCurrentPage_eq_of_row {T : Type} {s : Streamer T} {d : Db} {v : String}
    (hf : d.fault = none) (hk : lookupRow d.rows s.keyValueKey = some v) :
    GetCurrentPage s d =
      match parseInt64 v with
      | .error e => .error (.wrap ("failed to parse cursor") (.base e))
      | .ok page =>
        if page < 0 then .error (.base ("cursor cannot be negative"))
        else .ok page.toNat := by
  rw [GetCurrentPage, lockingGet_found hf hk]
  rfl

/-- C3, amended: for every string stored at the cursor key, `GetCurrentPage`
parses it as a base-10 *signed 64-bit* integer (Go's `strconv.ParseInt`
with bit size 64: optional sign, decimal digits, value within the signed
64-bit range) and returns the parsed number; it fails with a
cursor-corruption error — never silently defaulting to zero — exactly when
that parse fails (including syntactically valid unsigned values at or
above `2 ^ 63`, which are out of range for the signed parse) or the parsed
value is negative; for example the strings "abc" and "-1" both fail. -/
theorem getCurrentPage_parses_signed64 {T : Type} (s : Streamer T) (d : Db) (v : String)
    (hf : d.fault = none) (hk : lookupRow d.rows s.keyValueKey = some v) :
    ((∃ n, GetCurrentPage s d = .ok n) ↔ ∃ m : Int, parseInt64 v = .ok m ∧ 0 ≤ m)
    ∧ (∀ n, GetCurrentPage s d = .ok n → parseInt64 v = .ok ((n : Int))) := by
  cases hpv : parseInt64 v with
  | error e =>
    have hch : GetCurrentPage s d = .error (.wrap ("failed to parse cursor") (.base e)) := by
      rw [getCurrentPage_eq_of_row hf hk, hpv]
    refine ⟨⟨?_, ?_⟩, ?_⟩
    · rintro ⟨n, hn⟩
      rw [hch] at hn
      exact absurd hn (by simp)
    · rintro ⟨m, hm, _⟩
      exact absurd hm (by simp)
    · intro n hn
      rw [hch] at hn
      exact absurd hn (by simp)
  | ok m =>
    have hch : GetCurrentPage s d =
        if m < 0 then .error (.base ("cursor cannot be negative")) else .ok m.toNat := by
      rw [getCurrentPage_eq_of_row hf hk, hpv]
    by_cases hm : m < 0
    · rw [if_pos hm] at hch
      refine ⟨⟨?_, ?_⟩, ?_⟩
      · rintro ⟨n, hn⟩
        rw [hch] at hn
        exact absurd hn (by simp)
      · rintro ⟨m2, hm2, h0⟩
        simp only [Except.ok.injEq] at hm2
        subst hm2
        exact absurd h0 (by omega)
      · intro n hn
        rw [hch] at hn
        exact absurd hn (by simp)
    · rw [if_neg hm] at hch
      push_neg at hm
      refine ⟨⟨?_, ?_⟩, ?_⟩
      · intro _
        exact ⟨m, rfl, hm⟩
      · intro _
        exact ⟨m.toNat, hch⟩
      · intro n hn
        rw [hch] at hn
        simp only [Except.ok.injEq] at hn
        rw [← hn, Int.toNat_of_nonneg hm]

/-- Witness for C3 (amended): a cursor row holding the digit string for
seven is read back as page seven, so its stored string parses to seven. -/
theorem getCurrentPage_parses_signed64_witness : parseInt64 ("7") = .ok ((7 : Int)) :=
  (getCurrentPage_parses_signed64 exSrc ⟨[(("cursor"), ("7"))], none⟩ ("7") rfl rfl).2 7 rfl

/-- Counterexample for C3 as stated: the string for `2 ^ 63` is a base-10
unsigned 64-bit integer (nonempty, digits only, below `2 ^ 64`), and its
value is certainly non-negative, yet `GetCurrentPage` fails on it with the
cursor-corruption error, because the code parses with the *signed* 64-bit
`strconv.ParseInt`, for which the value is out of range. -/
theorem getCurrentPage_unsigned_counterexample :
    isUnsignedDecimal ("9223372036854775808") = true
    ∧ GetCurrentPage exSrc ⟨[(("cursor"), ("9223372036854775808"))], none⟩
        = .error (.wrap ("failed to parse cursor") (.base ("value out of range"))) :=
  ⟨rfl, rfl⟩

/-- The first call on a fresh store: the absent cursor resolves to page
zero, the page is returned, and the cursor row is created with the value
one. -/
theorem formList_first_call {T : Type} {s : Streamer T} {e : T} {tl : List T}
    (hsel0 : Select s 0 = .ok (e :: tl)) :
    FormList s ⟨[], none⟩ = (.ok (e :: tl), ⟨[(s.keyValueKey, formatUint 1)], none⟩) := by
  have hp : GetCurrentPage s ⟨[], none⟩ = .ok 0 := getCurrentPage_of_missing rfl rfl
  have h := formListGo_nonempty 1 hp hsel0
  rw [show FormList s ⟨[], none⟩ = FormListGo s (1 + 1) ⟨[], none⟩ from rfl, h]
  rfl

/-- A call with the cursor row holding page `c` and a non-empty page at `c`:
the page is returned and the cursor advances to `c + 1`. -/
theorem formList_cursor_step {T : Type} {s : Streamer T} {c : Nat} {e : T} {tl : List T}
    (hc : c < 2 ^ 63) (hsel : Select s c = .ok (e :: tl)) :
    FormList s ⟨[(s.keyValueKey, formatUint c)], none⟩ =
      (.ok (e :: tl), ⟨[(s.keyValueKey, formatUint (c + 1))], none⟩) := by
  have hlk : lookupRow [(s.keyValueKey, formatUint c)] s.keyValueKey = some (formatUint c) := by
    simp [lookupRow]
  have hp := getCurrentPage_of_row (d := ⟨[(s.keyValueKey, formatUint c)], none⟩) rfl hlk hc
  have h := formListGo_nonempty 1 hp hsel
  rw [show FormList s ⟨[(s.keyValueKey, formatUint c)], none⟩
      = FormListGo s (1 + 1) ⟨[(s.keyValueKey, formatUint c)], none⟩ from rfl, h,
    upsertRows_singleton]

/-- A call with the cursor row holding page `N + 1`, where the source is
empty: the cursor is reset to zero, the call restarts, returns page zero,
and stores the cursor value one. -/
theorem formList_cursor_wrap {T : Type} {s : Streamer T} {N : Nat} {e : T} {tl : List T}
    (hbound : N + 1 < 2 ^ 63) (hend : Select s (N + 1) = .ok [])
    (hsel0 : Select s 0 = .ok (e :: tl)) :
    FormList s ⟨[(s.keyValueKey, formatUint (N + 1))], none⟩ =
      (.ok (e :: tl), ⟨[(s.keyValueKey, formatUint 1)], none⟩) := by
  have hlk : lookupRow [(s.keyValueKey, formatUint (N + 1))] s.keyValueKey
      = some (formatUint (N + 1)) := by simp [lookupRow]
  have hp := getCurrentPage_of_row
    (d := ⟨[(s.keyValueKey, formatUint (N + 1))], none⟩) rfl hlk hbound
  have h1 := formListGo_wrap 1 hp (by omega) hend
  rw [show FormList s ⟨[(s.keyValueKey, formatUint (N + 1))], none⟩
      = FormListGo s (1 + 1) ⟨[(s.keyValueKey, formatUint (N + 1))], none⟩ from rfl, h1,
    upsertRows_singleton]
  have hlk0 : lookupRow [(s.keyValueKey, ("0"))] s.keyValueKey = some (formatUint 0) := by
    simp [lookupRow]
    rfl
  have hp0 := getCurrentPage_of_row (d := ⟨[(s.keyValueKey, ("0"))], none⟩) rfl hlk0 (by norm_num)
  have h2 := formListGo_nonempty 0 hp0 hsel0
  rw [show (1 : Nat) = 0 + 1 from rfl, h2, upsertRows_singleton]

/-- C1: for every paginated source presenting non-empty pages `0 .. N`
followed by an empty page at `N + 1`, repeated successful calls to
`FormList` starting from the fresh store (cursor resolving to zero) return
the pages in the cyclic order `0, 1, ..., N, 0, 1, ...` indefinitely: the
call of index `i` returns page `i % (N + 1)` and leaves the stored cursor
equal to the decimal encoding of that page number plus one. -/
theorem formList_cycles {T : Type} (s : Streamer T) (N : Nat) (pg : Nat → List T)
    (hsel : ∀ p, p ≤ N → Select s p = .ok (pg p))
    (hne : ∀ p, p ≤ N → pg p ≠ [])
    (hend : Select s (N + 1) = .ok [])
    (hbound : N + 1 < 2 ^ 63) :
    ∀ i, FormList s (dbAfterCalls s ⟨[], none⟩ i)
        = (.ok (pg (i % (N + 1))),
           ⟨[(s.keyValueKey, formatUint (i % (N + 1) + 1))], none⟩) := by
  have hsel0 : Select s 0 = .ok (pg 0) := hsel 0 (Nat.zero_le N)
  obtain ⟨e0, tl0, hpg0⟩ := List.exists_cons_of_ne_nil (hne 0 (Nat.zero_le N))
  intro i
  induction i with
  | zero =>
    have h := formList_first_call (s := s) (hpg0 ▸ hsel0)
    rw [show dbAfterCalls s ⟨[], none⟩ 0 = ⟨[], none⟩ from rfl, h,
      Nat.zero_mod, ← hpg0]
  | succ i ih =>
    have hdb : dbAfterCalls s ⟨[], none⟩ (i + 1)
        = ⟨[(s.keyValueKey, formatUint (i % (N + 1) + 1))], none⟩ := by
      show (FormList s (dbAfterCalls s ⟨[], none⟩ i)).2 = _
      rw [ih]
    have hclt : i % (N + 1) < N + 1 := Nat.mod_lt i (by omega)
    by_cases hcase : i % (N + 1) + 1 ≤ N
    · have hmod : (i + 1) % (N + 1) = i % (N + 1) + 1 := by
        rw [Nat.add_mod, Nat.mod_eq_of_lt (show 1 < N + 1 by omega)]
        exact Nat.mod_eq_of_lt (by omega)
      obtain ⟨e, tl, hpgc⟩ := List.exists_cons_of_ne_nil (hne (i % (N + 1) + 1) hcase)
      have hstep := formList_cursor_step (s := s)
        (show i % (N + 1) + 1 < 2 ^ 63 by omega)
        (hpgc ▸ hsel (i % (N + 1) + 1) hcase)
      rw [hdb, hmod, hstep, ← hpgc]
    · have hceq : i % (N + 1) = N := by omega
      have hmod : (i + 1) % (N + 1) = 0 := by
        rcases Nat.eq_zero_or_pos N with hN | hN
        · subst hN
          omega
        · rw [Nat.add_mod, Nat.mod_eq_of_lt (show 1 < N + 1 by omega), hceq, Nat.mod_self]
      have hwrap := formList_cursor_wrap (s := s) hbound hend (hpg0 ▸ hsel0)
      rw [hdb, hceq, hmod, hwrap, ← hpg0]

/-- Witness for C1: the claim's scenario — batch size two, five-element
source — where four consecutive calls return pages `[10, 20]`, `[30, 40]`,
`[50]`, `[10, 20]` with stored cursors one, two, three, one. -/
theorem formList_cycles_witness :
    FormList exSrc (dbAfterCalls exSrc ⟨[], none⟩ 0)
      = (.ok ([10, 20]), ⟨[(("cursor"), ("1"))], none⟩)
    ∧ FormList exSrc (dbAfterCalls exSrc ⟨[], none⟩ 1)
      = (.ok ([30, 40]), ⟨[(("cursor"), ("2"))], none⟩)
    ∧ FormList exSrc (dbAfterCalls exSrc ⟨[], none⟩ 2)
      = (.ok ([50]), ⟨[(("cursor"), ("3"))], none⟩)
    ∧ FormList exSrc (dbAfterCalls exSrc ⟨[], none⟩ 3)
      = (.ok ([10, 20]), ⟨[(("cursor"), ("1"))], none⟩) := by
  have hne2 : ∀ p, p ≤ 2 → exPage p ≠ [] := by
    intro p hp
    interval_cases p <;> decide
  have h := formList_cycles exSrc 2 exPage (fun p _ => rfl) hne2 rfl (by norm_num)
  exact ⟨h 0, h 1, h 2, h 3⟩

end Dban
